import Mathlib

/-!
Verification of the cycle orchestrator in Tools/agent_team.py.

Shallow embedding notes.
The module drives a four-stage workflow (spec, implementation, test, review)
around two external collaborators: the Generation Service (the LLM reached
through a chat-completions call followed by JSON extraction) and the
operating system (subprocess execution, the filesystem, the clock).
External behaviour is modelled by oracles:

* Each Generation Service call site is modelled at the parsed-record level by a
  CallOutcome value: the call raised an exception, or returned text that the
  JSON extraction rejected, or returned text that parsed to a structured
  record of the role's schema.  Because the service is opaque and
  non-deterministic, outcomes are indexed by call position (cycle, attempt,
  question index), not by prompt content; consequently the prompt strings the
  Python code assembles (which flow only into the service) are not
  reproduced here.
* The project directory is a Workspace: an association list from relative
  path to file content with last-write-wins overwrite, mirroring
  write_text / read_text / iterdir usage.  Directory creation by
  setup_project has no observable content and is not represented.
* The subprocess run inside run_code is a SandboxOutcome oracle value:
  completion with captured streams and exit code, a TimeoutExpired, or any
  other exception.
* Timestamps (datetime.now) only decorate log entries and the TESTREPORT
  header; log entries are modelled by their event name and agent only, and
  the test-report timestamp is threaded as an explicit string argument.

Exceptions are modelled by an Option String field in each stage result
(none = normal return, some e = the stage raised e); the fields of the
result record then hold the mutable state (workspace, log) exactly as it
was at the moment of the raise, matching Python semantics where writes
performed before an exception persist.

All functions are total and computable, so every stage invocation
terminates by construction.
-/

namespace AgentTeam

/-! ## Workspace: the per-feature project directory -/

/-- A project directory: relative path to file content, overwrite-on-write. -/
abbrev Workspace := List (String × String)

/-- Model of Path.write_text: overwrite the entry in place, or append a new
one (mirrors filesystem semantics: an existing file keeps its position). -/
def writeFile : Workspace → String → String → Workspace
  | [], path, content => [(path, content)]
  | kv :: rest, path, content =>
    if kv.1 = path then (path, content) :: rest
    else kv :: writeFile rest path content

/-- Model of read_file in agent_team.py: returns the empty string when the
file does not exist. -/
def readFile : Workspace → String → String
  | [], _ => ""
  | kv :: rest, name => if kv.1 = name then kv.2 else readFile rest name

/-- Model of write_files: write every (relative path, content) pair.
Dict- or list-valued contents are serialized by the Python code before
writing; contents are therefore already strings here. -/
def writeFiles (ws : Workspace) (files : List (String × String)) : Workspace :=
  files.foldl (fun w kv => writeFile w kv.1 kv.2) ws

/-- Insertion into a name-sorted file listing (sorted(d.iterdir())). -/
def insertByName (kv : String × String) : List (String × String) → List (String × String)
  | [] => [kv]
  | x :: xs => if kv.1 < x.1 then kv :: x :: xs else x :: insertByName kv xs

/-- Model of list_files: the files directly under a subdirectory, keyed by
file name, sorted by name. -/
def listFiles (ws : Workspace) (subdir : String) : List (String × String) :=
  ((ws.filter (fun kv => (subdir ++ "/").isPrefixOf kv.1)).map
    (fun kv => (kv.1.drop (subdir.length + 1), kv.2))).foldr insertByName []

/-! ## Run log -/

/-- One log entry, reduced to its event name and agent field (the timestamp
and keyword payload decorate the entry but carry no control flow). -/
structure Event where
  event : String
  agent : String
deriving Repr, DecidableEq

/-- Model of the log helper: append one entry at the end. -/
def logEvent (log : List Event) (event agent : String) : List Event :=
  log ++ [{ event := event, agent := agent }]

/-! ## Structured records returned by the Generation Service -/

/-- One test case from the spec-author response (input and expected output
are held in the serialized form in which write_files persists them). -/
structure TestCase where
  id : String
  description : String
  category : String
  input : String
  expected_output : String
deriving Repr, DecidableEq

/-- The spec-author record: three documents plus the test cases. -/
structure SpecData where
  spec_md : String
  testplan_md : String
  dod_md : String
  testcases : List TestCase
deriving Repr, DecidableEq, Inhabited

/-- A clarification question raised by the implementer. -/
structure Question where
  id : String
  unclear : String
deriving Repr, DecidableEq

/-- The clarifier record answering one question. -/
structure AnswerData where
  answer : String
  spec_update : String
deriving Repr, DecidableEq

/-- The implementer record: either questions or produced files (a missing
key parses to the empty list, matching dict.get(...) or []). -/
structure ImplData where
  questions : List Question
  files : List (String × String)
deriving Repr, DecidableEq

/-- One per-test-case judgment from the test-operator record. -/
structure TestResult where
  tc_id : String
  description : String
  actual_output : String
  expected_output : String
  pass : Bool
  notes : String
deriving Repr, DecidableEq

/-- One bug record from the test-operator record. -/
structure Bug where
  id : String
  title : String
  severity : String
  tc_id : String
  reproduce_steps : List String
  expected : String
  actual : String
  env : String
deriving Repr, DecidableEq

/-- The test-operator record. -/
structure TestData where
  test_results : List TestResult
  bugs : List Bug
  summary : String
deriving Repr, DecidableEq, Inhabited

/-- The reviewer record (missing verdict and required_changes keys parse to
the dict.get defaults used in run, see step4 and the cycle loop). -/
structure ReviewData where
  verdict : String
  summary : String
  required_changes : List String
  approved_ac : List String
  failed_ac : List String
deriving Repr, DecidableEq, Inhabited

/-- Outcome of one call_claude + parse_json pair: the HTTP call raised, or
the returned text failed JSON extraction (the raw text and the error message
are kept because the fallback paths reuse them), or it parsed to a record of
the expected shape. -/
inductive CallOutcome (α : Type) where
  | exc (e : String)
  | parseErr (raw : String) (e : String)
  | ok (a : α)
deriving Repr, DecidableEq

/-! ## Sandbox Runner (run_code) -/

/-- Outcome of the subprocess.run call: normal completion with captured
streams and exit code, a TimeoutExpired, or any other exception. -/
inductive SandboxOutcome where
  | completed (stdout stderr : String) (returncode : Int)
  | timedOut
  | raised (e : String)
deriving Repr, DecidableEq

/-- Model of run_code: pathExists is the code_path.exists() check, outcome
is the behaviour of the spawned subprocess.  Total by construction: every
input yields a (stdout, stderr, success) triple, never an exception. -/
def run_code (pathExists : Bool) (outcome : SandboxOutcome)
    (pathStr : String) (timeout : Nat) : String × String × Bool :=
  if !pathExists then
    ("", "Filen " ++ pathStr ++ " hittades inte", false)
  else
    match outcome with
    | .completed stdout stderr returncode =>
        (stdout.take 4000, stderr.take 2000, returncode == 0)
    | .timedOut => ("", "TIMEOUT > " ++ toString timeout ++ "s", false)
    | .raised e => ("", e, false)

/-- Timeout constant from the source (seconds per test run). -/
def CODE_RUN_TIMEOUT : Nat := 30

/-- Max clarification questions per step-2 iteration, from the source. -/
def MAX_ZACK_QUESTIONS : Nat := 3

/-! ## Step 4: Micke's review -/

/-- Result of a review-stage invocation.  The exc field models an exception
propagating out of the stage (from the generation call); in that case data
is never consumed by the caller. -/
structure Step4Result where
  log : List Event
  exc : Option String
  data : ReviewData
deriving Repr, DecidableEq

/-- Model of step4_micke_review.  The file reads feed only the prompt sent
to the Generation Service, whose outcome is the oracle argument.  On a parse
failure the stage substitutes the conservative fallback verdict from the
source. -/
def step4_micke_review (outcome : CallOutcome ReviewData) (ws : Workspace)
    (log : List Event) : Step4Result :=
  let log := logEvent log "micke_review_start" "Micke"
  let _testreport := readFile ws "TESTREPORT.md"
  let _spec_md := readFile ws "SPEC.md"
  let _dod_md := readFile ws "DOD.md"
  let _src_files := listFiles ws "src"
  let _bug_files := listFiles ws "bugs"
  match outcome with
  | .exc e => { log := log, exc := some e, data := default }
  | .parseErr _ e =>
      let log := logEvent log "micke_review_parse_error" "Micke"
      let data : ReviewData :=
        { verdict := "changes_required",
          summary := "Review-parse-fel: " ++ e,
          required_changes := ["Kontrollera output-format"],
          approved_ac := [], failed_ac := [] }
      { log := logEvent log "micke_review_done" "Micke", exc := none, data := data }
  | .ok data =>
      { log := logEvent log "micke_review_done" "Micke", exc := none, data := data }

/-! ## Result Aggregator (write_result_summary) -/

/-- One recorded cycle: the record appended by run after each completed
Implementation - Test - Review pass. -/
structure CycleSummary where
  cycle : Nat
  passed : Nat
  total : Nat
  bugs : List Bug
  test_results : List TestResult
  verdict : String
  approved_ac : List String
  failed_ac : List String
  required_changes : List String
  summary : String
deriving Repr, DecidableEq, Inhabited

/-- Pass/fail/unknown symbol for one test case in the summary. -/
def verdictSymbol (r : Option TestResult) : String :=
  match r with
  | some t => if t.pass then "✓" else "✗"
  | none => "?"

/-- One test-case line of the summary; the lookup takes the last matching
test result, mirroring the dict comprehension where later entries win. -/
def testcaseLine (final : List TestResult) (tc : TestCase) : String :=
  let result := final.reverse.find? (fun t => t.tc_id = tc.id)
  "- [" ++ verdictSymbol result ++ "] " ++ tc.id ++ " (" ++ tc.category ++ "): " ++
    tc.description

/-- Rendering of one bug reference in the per-cycle section. -/
def bugRef (b : Bug) : String := b.id ++ "(" ++ b.severity ++ ")"

/-- The per-cycle section of the summary for one CycleSummary. -/
def cycleLines (cs : CycleSummary) : List String :=
  let blockers := cs.bugs.filter (fun b => b.severity = "blocker")
  let vLabel := if cs.verdict = "approve" then "Godkänd" else "Changes Required"
  ["", "### Cykel " ++ toString cs.cycle,
   "- Tester: " ++ toString cs.passed ++ "/" ++ toString cs.total ++ " PASS"] ++
  (if cs.bugs ≠ [] then
    ["- Buggar: " ++ String.intercalate ", " ((cs.bugs.take 5).map bugRef) ++
      (if blockers ≠ [] then "  [" ++ toString blockers.length ++ " blocker]" else "")]
   else ["- Buggar: inga"]) ++
  ["- Micke: " ++ vLabel] ++
  (cs.required_changes.take 5).map (fun rc => "  → " ++ rc)

/-- The lines of RESULT_SUMMARY.md as assembled by write_result_summary. -/
def resultSummaryLines (feat_id task : String) (spec_data : SpecData)
    (cycle_summaries : List CycleSummary) : List String :=
  let final := cycle_summaries.getLast?
  let verdict := match final with | some f => f.verdict | none => "pending"
  let total_cycles := cycle_summaries.length
  let verdict_label := if verdict = "approve" then "GODKÄND" else "EJ GODKÄND"
  let lines := ["# Resultatjämförelse — " ++ feat_id, "", "## Uppgift", task, "",
    "## Slutresultat: " ++ verdict_label ++ " (" ++ toString total_cycles ++ " cykel" ++
      (if total_cycles ≠ 1 then "er" else "") ++ ")"]
  let finalResults := match final with | some f => f.test_results | none => []
  let lines := lines ++
    (if spec_data.testcases ≠ [] then
      ["", "## Testfall (mål vs utfall)"] ++
        spec_data.testcases.map (testcaseLine finalResults)
     else [])
  let approved_ac := match final with | some f => f.approved_ac | none => []
  let failed_ac := match final with | some f => f.failed_ac | none => []
  let lines := lines ++
    (if approved_ac ≠ [] ∨ failed_ac ≠ [] then
      ["", "## Acceptance Criteria"] ++
        approved_ac.map (fun ac => "- [✓] " ++ ac) ++
        failed_ac.map (fun ac => "- [✗] " ++ ac)
     else [])
  lines ++ ["", "## Per cykel"] ++ (cycle_summaries.map cycleLines).flatten

/-- Model of write_result_summary: render the lines and persist them as
RESULT_SUMMARY.md.  The function reads neither the clock nor the prior
workspace contents; its output depends only on its arguments. -/
def write_result_summary (ws : Workspace) (feat_id task : String)
    (spec_data : SpecData) (cycle_summaries : List CycleSummary) : Workspace :=
  writeFiles ws
    [("RESULT_SUMMARY.md",
      String.intercalate "\n" (resultSummaryLines feat_id task spec_data cycle_summaries))]

/-! ## Step 2: Zack's implementation with the clarification sub-loop -/

/-- The Generation Service outcomes visible to one step-2 invocation:
implResp attempt is the top-level implementer call of that attempt,
answerResp attempt i the clarifier call answering question i of that
attempt. -/
structure Step2Oracle where
  implResp : Nat → CallOutcome ImplData
  answerResp : Nat → Nat → CallOutcome AnswerData

/-- Mutable state of one step-2 invocation.  topCalls and clarCalls count
the top-level implementer calls and the clarification calls actually
issued; specUpdates counts executions of the specification-amendment
branch.  The counters instrument the control flow without affecting it. -/
structure Step2State where
  spec_md : String
  ws : Workspace
  log : List Event
  topCalls : Nat
  clarCalls : Nat
  specUpdates : Nat
deriving Repr, DecidableEq

/-- The text appended to SPEC.md when an answer amends the specification. -/
def specUpdateText (spec_md qid upd : String) : String :=
  spec_md ++ "\n\n### Uppdatering (svar på " ++ qid ++ "):\n" ++ upd

/-- Processing of one parsed (or fallback) Answer: log it, and if it amends
the specification, append the amendment and persist SPEC.md. -/
def applyAnswer (st : Step2State) (q : Question) (ans : AnswerData) : Step2State :=
  let st := { st with log := logEvent st.log "micke_answer" "Micke" }
  if ans.spec_update ≠ "" then
    let newSpec := specUpdateText st.spec_md q.id ans.spec_update
    { st with spec_md := newSpec,
              ws := writeFile st.ws "SPEC.md" newSpec,
              log := logEvent st.log "spec_updated" "Micke",
              specUpdates := st.specUpdates + 1 }
  else st

/-- The inner for-loop over enumerate(questions[:MAX_ZACK_QUESTIONS]): one
clarification call per question; an unparseable answer falls back to the
raw text; an exception in the clarification call propagates (second
component some e). -/
def answerQuestions (o : Step2Oracle) (agent : String) (attempt : Nat) :
    List (Nat × Question) → Step2State → Step2State × Option String
  | [], st => (st, none)
  | (i, q) :: rest, st =>
    let st1 : Step2State :=
      { st with log := logEvent st.log "zack_question" agent,
                clarCalls := st.clarCalls + 1 }
    match o.answerResp attempt i with
    | .exc e => (st1, some e)
    | .parseErr raw _ =>
        answerQuestions o agent attempt rest
          (applyAnswer st1 q { answer := raw.take 500, spec_update := "" })
    | .ok ans => answerQuestions o agent attempt rest (applyAnswer st1 q ans)

/-- How one step-2 invocation ended: an exception propagated, files were
written (the early return), or the loop broke / ran out of attempts
without files (the warning path). -/
inductive Step2Exit where
  | raised (e : String)
  | wroteFiles
  | noFiles
deriving Repr, DecidableEq

/-- The attempt loop of step2_zack_impl over the remaining attempt
indices.  Mirrors the source: an unparseable response breaks; questions
(only outside fix mode) trigger the clarification sub-loop and another
attempt; files end the stage; an empty response breaks. -/
def step2Loop (o : Step2Oracle) (agent : String) (is_fix : Bool) :
    List Nat → Step2State → Step2State × Step2Exit
  | [], st => (st, .noFiles)
  | attempt :: rest, st =>
    let st := { st with log := logEvent st.log "zack_impl_attempt" agent }
    let st := { st with topCalls := st.topCalls + 1 }
    match o.implResp attempt with
    | .exc e => (st, .raised e)
    | .parseErr _ _ =>
        ({ st with log := logEvent st.log "zack_parse_error" agent }, .noFiles)
    | .ok data =>
      if data.questions ≠ [] ∧ is_fix = false then
        match answerQuestions o agent attempt
            ((data.questions.take MAX_ZACK_QUESTIONS).enum) st with
        | (st, some e) => (st, .raised e)
        | (st, none) => step2Loop o agent is_fix rest st
      else
        if data.files ≠ [] then
          ({ st with ws := writeFiles st.ws data.files,
                     log := logEvent st.log "zack_impl_done" agent }, .wroteFiles)
        else
          ({ st with log := logEvent st.log "zack_no_output" agent }, .noFiles)

/-- Result of one step-2 invocation (exc = some e when an exception
propagated to the caller; workspace and log hold the writes performed
before the raise). -/
structure Step2Result where
  ws : Workspace
  log : List Event
  exc : Option String
  topCalls : Nat
  clarCalls : Nat
  specUpdates : Nat
deriving Repr, DecidableEq

/-- Model of step2_zack_impl.  The task and required_changes arguments feed
only the prompt; the file reads at the top likewise. -/
def step2_zack_impl (o : Step2Oracle) (task : String) (ws : Workspace)
    (log : List Event) (is_fix : Bool) (required_changes : List String) :
    Step2Result :=
  let spec_md := readFile ws "SPEC.md"
  let _testplan := readFile ws "TESTPLAN.md"
  let _changelog := readFile ws "CHANGELOG.md"
  let _task := task
  let _rc := required_changes
  let agent := if is_fix then "Zack(fix)" else "Zack"
  let st0 : Step2State := { spec_md := spec_md, ws := ws, log := log,
                            topCalls := 0, clarCalls := 0, specUpdates := 0 }
  match step2Loop o agent is_fix (List.range (MAX_ZACK_QUESTIONS + 1)) st0 with
  | (st, .raised e) =>
      { ws := st.ws, log := st.log, exc := some e,
        topCalls := st.topCalls, clarCalls := st.clarCalls,
        specUpdates := st.specUpdates }
  | (st, .wroteFiles) =>
      { ws := st.ws, log := st.log, exc := none,
        topCalls := st.topCalls, clarCalls := st.clarCalls,
        specUpdates := st.specUpdates }
  | (st, .noFiles) =>
      { ws := st.ws, log := logEvent st.log "zack_impl_warning" agent, exc := none,
        topCalls := st.topCalls, clarCalls := st.clarCalls,
        specUpdates := st.specUpdates }

/-- Number of clarification questions recorded in a log: one zack_question
event is logged immediately before each clarification call. -/
def countQ (log : List Event) : Nat :=
  (log.filter (fun e => e.event = "zack_question")).length

/-- A Generation Service stub that returns one question on every
implementer call and never produces files. -/
def alwaysQuestionOracle : Step2Oracle where
  implResp := fun _ =>
    .ok { questions := [{ id := "Q-001", unclear := "x" }], files := [] }
  answerResp := fun _ _ => .ok { answer := "a", spec_update := "" }

/-! ## Step 1: Micke's spec and test plan -/

/-- Result of the spec stage.  exc is some e when the generation call or the
JSON extraction raised: both propagate out of step1_micke_spec, and both
happen before any artifact write, so ws is then unchanged. -/
structure Step1Result where
  ws : Workspace
  log : List Event
  exc : Option String
  data : SpecData
deriving Repr, DecidableEq

/-- Model of step1_micke_spec: one spec-author call; on success the three
documents and, per test case, the input and expected-output payloads are
persisted, keyed by test-case identifier. -/
def step1_micke_spec (outcome : CallOutcome SpecData) (ws : Workspace)
    (log : List Event) : Step1Result :=
  let log := logEvent log "micke_spec_start" "Micke"
  match outcome with
  | .exc e => { ws := ws, log := log, exc := some e, data := default }
  | .parseErr _ e => { ws := ws, log := log, exc := some e, data := default }
  | .ok data =>
      let files :=
        [("SPEC.md", data.spec_md), ("TESTPLAN.md", data.testplan_md),
         ("DOD.md", data.dod_md)] ++
        (data.testcases.map (fun tc =>
          [("testdata/" ++ tc.id ++ ".json", tc.input),
           ("expected/" ++ tc.id ++ ".json", tc.expected_output)])).flatten
      { ws := writeFiles ws files,
        log := logEvent log "micke_spec_done" "Micke",
        exc := none, data := data }

/-! ## Step 3: Johan's test execution -/

/-- Existence check for the program entry point (code_path.exists()). -/
def fileExists (ws : Workspace) (p : String) : Bool :=
  ws.any (fun kv => kv.1 = p)

/-- The lines added to the test report for one test result. -/
def testResultLines (tr : TestResult) : List String :=
  let status := if tr.pass then "PASS" else "FAIL"
  ["- [" ++ status ++ "] " ++ tr.tc_id ++ ": " ++ tr.description] ++
  (if !tr.pass then
    ["  Faktiskt: " ++ tr.actual_output.take 200,
     "  Förväntat: " ++ tr.expected_output.take 200]
   else [])

/-- The TESTREPORT.md lines (now is the timestamp rendered in the header —
the only place the clock reaches an artifact). -/
def testReportLines (now : String) (data : TestData) (passed failed : Nat) :
    List String :=
  ["# TESTREPORT", "Datum: " ++ now,
   "Testfall körda: " ++ toString data.test_results.length ++
     "  |  Godkända: " ++ toString passed ++ "  |  Underkända: " ++ toString failed,
   "", "## Sammanfattning", data.summary, "", "## Testfall"] ++
  (data.test_results.map testResultLines).flatten ++
  (if data.bugs ≠ [] then
    ["", "## Öppna buggar"] ++
      data.bugs.map (fun b =>
        "- [" ++ b.severity.toUpper ++ "] " ++ b.id ++ ": " ++ b.title)
   else [])

/-- The rendered content of one bugs/BUG-id.md artifact. -/
def bugMd (b : Bug) : String :=
  "# " ++ b.id ++ ": " ++ b.title ++ "\n\n**Allvarlighetsgrad:** " ++
    b.severity.toUpper ++ "\n**Testfall:** " ++ b.tc_id ++ "\n**Miljö:** " ++
    b.env ++ "\n\n## Steg att reproducera\n" ++
    String.intercalate "\n"
      (b.reproduce_steps.enum.map (fun p => toString (p.1 + 1) ++ ". " ++ p.2)) ++
    "\n\n## Förväntat resultat\n" ++ b.expected ++
    "\n\n## Faktiskt resultat\n" ++ b.actual ++ "\n"

/-- Result of one test-stage invocation. -/
structure Step3Result where
  ws : Workspace
  log : List Event
  exc : Option String
  data : TestData
deriving Repr, DecidableEq

/-- Model of step3_johan_test.  Every persisted test-data artifact (unless
filtered out; an empty filter list is falsy and filters nothing) is run
through the Sandbox Runner; the raw results feed only the judgment prompt.
The judgment outcome is the oracle argument: an exception propagates before
any write, an unparseable judgment degrades to the empty result set with a
parse-error summary, and otherwise the report and per-bug artifacts are
written. -/
def step3_johan_test (outcome : CallOutcome TestData)
    (sandbox : String → SandboxOutcome) (now : String) (ws : Workspace)
    (log : List Event) (tc_filter : Option (List String)) : Step3Result :=
  let log := logEvent log "johan_test_start" "Johan"
  let _testplan := readFile ws "TESTPLAN.md"
  let testdata := listFiles ws "testdata"
  let _expected := listFiles ws "expected"
  let _src_files := listFiles ws "src"
  let _spec_md := readFile ws "SPEC.md"
  let mainExists := fileExists ws "src/main.py"
  let _runResults := testdata.filterMap (fun kv =>
    let tc_bare := kv.1.replace ".json" ""
    let skip : Bool := match tc_filter with
      | some f => decide (f ≠ []) && !(f.contains tc_bare)
      | none => false
    if skip then none
    else some (tc_bare, run_code mainExists (sandbox tc_bare) "src/main.py"
      CODE_RUN_TIMEOUT))
  let finish : TestData → List Event → Step3Result := fun data log =>
    let passed := (data.test_results.filter (fun t => t.pass)).length
    let failed := (data.test_results.filter (fun t => !t.pass)).length
    let ws := writeFiles ws
      [("TESTREPORT.md",
        String.intercalate "\n" (testReportLines now data passed failed))]
    let ws := data.bugs.foldl
      (fun w b => writeFiles w [("bugs/" ++ b.id ++ ".md", bugMd b)]) ws
    { ws := ws, log := logEvent log "johan_test_done" "Johan",
      exc := none, data := data }
  match outcome with
  | .exc e => { ws := ws, log := log, exc := some e, data := default }
  | .parseErr _ e =>
      finish { test_results := [], bugs := [], summary := "Parse-fel: " ++ e }
        (logEvent log "johan_parse_error" "Johan")
  | .ok data => finish data log

/-! ## The orchestrator: run -/

/-- Everything external that one run can observe: the spec-author outcome,
per-cycle implementer and clarifier outcomes, per-cycle test-operator and
reviewer outcomes, per-cycle sandbox behaviour per test case, and the
timestamp each cycle's test report renders. -/
structure Oracle where
  specResp : CallOutcome SpecData
  step2 : Nat → Step2Oracle
  testResp : Nat → CallOutcome TestData
  sandbox : Nat → String → SandboxOutcome
  reviewResp : Nat → CallOutcome ReviewData
  now : Nat → String

/-- The RunResult dict returned by run.  The early error return (_result)
carries no cycle-summaries key; it is modelled by the empty list. -/
structure RunResult where
  feat_id : String
  task : String
  status : String
  cycles : Nat
  artifacts : List (String × String)
  src_files : List (String × String)
  bug_files : List (String × String)
  required_changes : List String
  cycle_summaries : List CycleSummary
  log : List Event
deriving Repr, DecidableEq

/-- The local variables of run threaded through the cycle loop.  lastCycle
models the Python loop variable cycle: none while the loop body has never
executed (referencing it then raises NameError).  stageExc instruments the
three break-on-exception paths without affecting control flow. -/
structure LoopState where
  ws : Workspace
  log : List Event
  verdict : String
  required_changes : List String
  cycle_summaries : List CycleSummary
  lastCycle : Option Nat
  stageExc : Bool
deriving Repr, DecidableEq

/-- The cycle indices range(1, max_cycles + 1): empty when max_cycles < 1
(toNat clamps negative values to 0, matching range semantics). -/
def cycleIdxs (max_cycles : Int) : List Nat :=
  (List.range max_cycles.toNat).map (fun i => i + 1)

/-- One pass of the steps 2-4 loop per remaining cycle index, with the
early breaks of the source: a stage exception breaks the whole loop (with
the corresponding stepN_error log entry), and an approve verdict stops
after recording its CycleSummary. -/
def cycleLoop (o : Oracle) (task : String) : List Nat → LoopState → LoopState
  | [], st => st
  | c :: rest, st =>
    let st0 := { st with lastCycle := some c }
    let r2 := step2_zack_impl (o.step2 c) task st0.ws st0.log (decide (1 < c))
      st0.required_changes
    if r2.exc.isSome then
      { st0 with ws := r2.ws, log := logEvent r2.log "step2_error" "",
                 stageExc := true }
    else
      let st1 := { st0 with ws := r2.ws, log := r2.log }
      let r3 := step3_johan_test (o.testResp c) (o.sandbox c) (o.now c)
        st1.ws st1.log none
      if r3.exc.isSome then
        { st1 with ws := r3.ws, log := logEvent r3.log "step3_error" "",
                   stageExc := true }
      else
        let st2 := { st1 with ws := r3.ws, log := r3.log }
        let r4 := step4_micke_review (o.reviewResp c) st2.ws st2.log
        if r4.exc.isSome then
          { st2 with log := logEvent r4.log "step4_error" "", stageExc := true }
        else
          let passed := (r3.data.test_results.filter (fun t => t.pass)).length
          let total := r3.data.test_results.length
          let cs : CycleSummary :=
            { cycle := c, passed := passed, total := total, bugs := r3.data.bugs,
              test_results := r3.data.test_results, verdict := r4.data.verdict,
              approved_ac := r4.data.approved_ac, failed_ac := r4.data.failed_ac,
              required_changes := r4.data.required_changes,
              summary := r4.data.summary }
          let st3 :=
            { st2 with
              log := r4.log, verdict := r4.data.verdict,
              required_changes := r4.data.required_changes,
              cycle_summaries := st2.cycle_summaries ++ [cs] }
          if r4.data.verdict = "approve" then st3 else cycleLoop o task rest st3

/-- The two log entries recorded before step 1. -/
def initialLog : List Event :=
  logEvent (logEvent [] "start" "") "project_created" ""

/-- The status string of the final RunResult. -/
def runStatus (verdict : String) : String :=
  if verdict = "approve" then "approved"
  else if verdict = "changes_required" then "changes_required"
  else "error"

/-- The early-error RunResult (_result): status error, cycle count 0, no
artifacts and no cycle summaries. -/
def errResult (feat_id task : String) (log : List Event) : RunResult :=
  { feat_id := feat_id, task := task, status := "error", cycles := 0,
    artifacts := [], src_files := [], bug_files := [], required_changes := [],
    cycle_summaries := [], log := log }

/-- The top-level artifact slots collected into the final RunResult. -/
def artifactNames : List String :=
  ["SPEC.md", "TESTPLAN.md", "DOD.md", "TESTREPORT.md", "RUNBOOK.md",
   "CHANGELOG.md", "RESULT_SUMMARY.md"]

/-- Model of run over a fresh project directory.  The returned value is
Except: error models the uncaught NameError raised when the final log entry
references the loop variable cycle although the loop body never executed;
ok carries the RunResult dict together with the final project directory. -/
def run (o : Oracle) (task : String) (url : Option String) (feat_id : String)
    (max_cycles : Int) : Except String (RunResult × Workspace) :=
  let _url := url
  let r1 := step1_micke_spec o.specResp [] initialLog
  match r1.exc with
  | some _ =>
      .ok (errResult feat_id task (logEvent r1.log "step1_error" ""), r1.ws)
  | none =>
      let spec_data := r1.data
      let fin := cycleLoop o task (cycleIdxs max_cycles)
        { ws := r1.ws, log := r1.log, verdict := "pending",
          required_changes := [], cycle_summaries := [], lastCycle := none,
          stageExc := false }
      let ws := if fin.cycle_summaries ≠ [] then
          write_result_summary fin.ws feat_id task spec_data fin.cycle_summaries
        else fin.ws
      match fin.lastCycle with
      | none => .error "NameError: name 'cycle' is not defined"
      | some cycle =>
          .ok ({ feat_id := feat_id, task := task,
                 status := runStatus fin.verdict,
                 cycles := cycle,
                 artifacts := artifactNames.map (fun n => (n, readFile ws n)),
                 src_files := listFiles ws "src",
                 bug_files := listFiles ws "bugs",
                 required_changes := fin.required_changes,
                 cycle_summaries := fin.cycle_summaries,
                 log := logEvent fin.log "done" "" }, ws)

/-- The cycle-loop state run reaches after step 1 (none when step 1
raised), used to state which runs experienced a stage exception. -/
def runFinalState (o : Oracle) (task : String) (max_cycles : Int) :
    Option LoopState :=
  let r1 := step1_micke_spec o.specResp [] initialLog
  match r1.exc with
  | some _ => none
  | none =>
      some (cycleLoop o task (cycleIdxs max_cycles)
        { ws := r1.ws, log := r1.log, verdict := "pending",
          required_changes := [], cycle_summaries := [], lastCycle := none,
          stageExc := false })

/-- Whether a stage exception broke the cycle loop of this run. -/
def stageExcB (o : Oracle) (task : String) (max_cycles : Int) : Bool :=
  match runFinalState o task max_cycles with
  | some st => st.stageExc
  | none => false

/-- Whether the spec-author response parsed (step 1 succeeds exactly then). -/
def specOk : CallOutcome SpecData → Bool
  | .ok _ => true
  | _ => false

/-- The status field of a completed run (RAISED when run raised). -/
def statusOf : Except String (RunResult × Workspace) → String
  | .ok (r, _) => r.status
  | .error _ => "RAISED"

/-- The cycle-summaries sequence of a completed run (empty when run
raised: a raised run returns no value at all). -/
def summariesOf : Except String (RunResult × Workspace) → List CycleSummary
  | .ok (r, _) => r.cycle_summaries
  | .error _ => []

/-- The cycles field of a completed run. -/
def cyclesOf : Except String (RunResult × Workspace) → Option Nat
  | .ok (r, _) => some r.cycles
  | .error _ => none

/-- The final project directory of a completed run. -/
def wsOf : Except String (RunResult × Workspace) → Workspace
  | .ok (_, w) => w
  | .error _ => []

/-- Whether run raised an uncaught exception instead of returning. -/
def runRaises : Except String (RunResult × Workspace) → Bool
  | .error _ => true
  | .ok _ => false

/-- No recorded CycleSummary carries an approve verdict. -/
def noApprove (l : List CycleSummary) : Prop :=
  ∀ cs ∈ l, cs.verdict ≠ "approve"

/-- Any CycleSummary carrying an approve verdict is the last element. -/
def approveOnlyLast (l : List CycleSummary) : Prop :=
  ∀ i (h : i < l.length), l[i].verdict = "approve" → i + 1 = l.length

/-- A Generation Service stub whose spec-author response does not parse;
the remaining call sites never answer usefully. -/
def specParseFailOracle : Oracle where
  specResp := .parseErr "inte json" "Ingen JSON hittades"
  step2 := fun _ =>
    { implResp := fun _ => .ok { questions := [], files := [] },
      answerResp := fun _ _ => .ok { answer := "", spec_update := "" } }
  testResp := fun _ => .ok default
  sandbox := fun _ _ => .timedOut
  reviewResp := fun _ => .ok default
  now := fun _ => "2025-01-01T00:00:00"

/-- A Generation Service stub that completes cycle 1 normally with a
changes_required review, and whose implementer call raises from cycle 2
onwards. -/
def cycle2FailureOracle : Oracle where
  specResp := .ok { spec_md := "S", testplan_md := "T", dod_md := "D",
                    testcases := [] }
  step2 := fun c =>
    if c = 1 then
      { implResp := fun _ =>
          .ok { questions := [], files := [("src/main.py", "print(1)")] },
        answerResp := fun _ _ => .ok { answer := "", spec_update := "" } }
    else
      { implResp := fun _ => .exc "ConnectionError",
        answerResp := fun _ _ => .ok { answer := "", spec_update := "" } }
  testResp := fun _ => .ok { test_results := [], bugs := [], summary := "ok" }
  sandbox := fun _ _ => .completed "" "" 0
  reviewResp := fun _ =>
    .ok { verdict := "changes_required", summary := "fix",
          required_changes := ["fix X"], approved_ac := [], failed_ac := [] }
  now := fun _ => "TS"

/-! ## Basic workspace lemmas -/

theorem readFile_writeFile_same (ws : Workspace) (p c : String) :
    readFile (writeFile ws p c) p = c := by
  induction ws with
  | nil => simp [writeFile, readFile]
  | cons kv rest ih =>
      by_cases h : kv.1 = p
      · simp [writeFile, readFile, h]
      · simp [writeFile, readFile, h, ih]

theorem writeFile_writeFile_same (ws : Workspace) (p c : String) :
    writeFile (writeFile ws p c) p c = writeFile ws p c := by
  induction ws with
  | nil => simp [writeFile]
  | cons kv rest ih =>
      by_cases h : kv.1 = p
      · simp [writeFile, h]
      · simp [writeFile, h, ih]

/-! ## Counting lemmas for the clarification sub-loop -/

theorem countQ_logEvent (log : List Event) (e a : String) :
    countQ (logEvent log e a) =
      countQ log + (if e = "zack_question" then 1 else 0) := by
  by_cases h : e = "zack_question" <;>
    simp [countQ, logEvent, List.filter_append, h]

theorem applyAnswer_counts (st : Step2State) (q : Question) (ans : AnswerData) :
    (applyAnswer st q ans).clarCalls = st.clarCalls ∧
    (applyAnswer st q ans).topCalls = st.topCalls ∧
    countQ (applyAnswer st q ans).log = countQ st.log := by
  unfold applyAnswer
  by_cases h : ans.spec_update = "" <;> simp [h, countQ_logEvent]

theorem answerQuestions_counts (o : Step2Oracle) (agent : String) (attempt : Nat) :
    ∀ (l : List (Nat × Question)) (st : Step2State),
      ∃ k, k ≤ l.length ∧
        (answerQuestions o agent attempt l st).1.clarCalls = st.clarCalls + k ∧
        (answerQuestions o agent attempt l st).1.topCalls = st.topCalls ∧
        countQ (answerQuestions o agent attempt l st).1.log = countQ st.log + k := by
  intro l
  induction l with
  | nil =>
      intro st
      exact ⟨0, by simp, by simp [answerQuestions], by simp [answerQuestions],
        by simp [answerQuestions]⟩
  | cons p rest ih =>
      obtain ⟨i, q⟩ := p
      intro st
      cases h : o.answerResp attempt i with
      | exc e =>
          refine ⟨1, by simp, ?_, ?_, ?_⟩ <;>
            simp [answerQuestions, h, countQ_logEvent]
      | parseErr raw e =>
          obtain ⟨k, hk, h1, h2, h3⟩ := ih (applyAnswer
            { st with log := logEvent st.log "zack_question" agent,
                      clarCalls := st.clarCalls + 1 } q
            { answer := raw.take 500, spec_update := "" })
          obtain ⟨a1, a2, a3⟩ := applyAnswer_counts
            { st with log := logEvent st.log "zack_question" agent,
                      clarCalls := st.clarCalls + 1 } q
            { answer := raw.take 500, spec_update := "" }
          refine ⟨k + 1, by simpa using Nat.add_le_add_right hk 1, ?_, ?_, ?_⟩ <;>
            (simp [answerQuestions, h, h1, h2, h3, a1, a2, a3,
              countQ_logEvent] <;> omega)
      | ok ans =>
          obtain ⟨k, hk, h1, h2, h3⟩ := ih (applyAnswer
            { st with log := logEvent st.log "zack_question" agent,
                      clarCalls := st.clarCalls + 1 } q ans)
          obtain ⟨a1, a2, a3⟩ := applyAnswer_counts
            { st with log := logEvent st.log "zack_question" agent,
                      clarCalls := st.clarCalls + 1 } q ans
          refine ⟨k + 1, by simpa using Nat.add_le_add_right hk 1, ?_, ?_, ?_⟩ <;>
            (simp [answerQuestions, h, h1, h2, h3, a1, a2, a3,
              countQ_logEvent] <;> omega)

theorem step2Loop_counts (o : Step2Oracle) (agent : String) (is_fix : Bool) :
    ∀ (attempts : List Nat) (st : Step2State),
      ∃ a k, a ≤ attempts.length ∧ k ≤ MAX_ZACK_QUESTIONS * a ∧
        (step2Loop o agent is_fix attempts st).1.topCalls = st.topCalls + a ∧
        (step2Loop o agent is_fix attempts st).1.clarCalls = st.clarCalls + k ∧
        countQ (step2Loop o agent is_fix attempts st).1.log = countQ st.log + k := by
  intro attempts
  induction attempts with
  | nil =>
      intro st
      exact ⟨0, 0, by simp, by simp, by simp [step2Loop], by simp [step2Loop],
        by simp [step2Loop]⟩
  | cons attempt rest ih =>
      intro st
      cases h : o.implResp attempt with
      | exc e =>
          refine ⟨1, 0, by simp, by simp, ?_, ?_, ?_⟩ <;>
            (simp [step2Loop, h, countQ_logEvent] <;> omega)
      | parseErr raw e =>
          refine ⟨1, 0, by simp, by simp, ?_, ?_, ?_⟩ <;>
            (simp [step2Loop, h, countQ_logEvent] <;> omega)
      | ok data =>
          by_cases hq : data.questions ≠ [] ∧ is_fix = false
          · obtain ⟨k0, hk0, q1, q2, q3⟩ := answerQuestions_counts o agent attempt
              ((data.questions.take MAX_ZACK_QUESTIONS).enum)
              { st with log := logEvent st.log "zack_impl_attempt" agent,
                        topCalls := st.topCalls + 1 }
            have hk0' : k0 ≤ MAX_ZACK_QUESTIONS := by
              refine le_trans hk0 ?_
              simp [List.enum_length, MAX_ZACK_QUESTIONS]
            cases hA : answerQuestions o agent attempt
                ((data.questions.take MAX_ZACK_QUESTIONS).enum)
                { st with log := logEvent st.log "zack_impl_attempt" agent,
                          topCalls := st.topCalls + 1 } with
            | mk st2 eopt =>
              rw [hA] at q1 q2 q3
              cases eopt with
              | some err =>
                  refine ⟨1, k0, by simp, by simpa [MAX_ZACK_QUESTIONS] using hk0',
                    ?_, ?_, ?_⟩ <;>
                    (simp [step2Loop, h, hq, hA, countQ_logEvent] at q1 q2 q3 ⊢ <;>
                      omega)
              | none =>
                  obtain ⟨a, k, ha, hk, r1, r2, r3⟩ := ih st2
                  refine ⟨a + 1, k0 + k, by simp; omega, ?_, ?_, ?_, ?_⟩
                  · have : k ≤ MAX_ZACK_QUESTIONS * a := hk
                    simp only [MAX_ZACK_QUESTIONS] at hk0' this ⊢
                    omega
                  all_goals
                    (simp [step2Loop, h, hq, hA, countQ_logEvent] at q1 q2 q3 r1 r2 r3 ⊢ <;>
                      omega)
          · by_cases hf : data.files ≠ []
            · refine ⟨1, 0, by simp, by simp, ?_, ?_, ?_⟩ <;>
                (simp [step2Loop, h, hq, hf, countQ_logEvent] <;> omega)
            · refine ⟨1, 0, by simp, by simp, ?_, ?_, ?_⟩ <;>
                (simp [step2Loop, h, hq, hf, countQ_logEvent] <;> omega)

/-- In fix mode the clarification branch is unreachable, so the
clarification-call and spec-amendment counters never move. -/
theorem step2Loop_fix_counts (o : Step2Oracle) (agent : String) :
    ∀ (attempts : List Nat) (st : Step2State),
      (step2Loop o agent true attempts st).1.clarCalls = st.clarCalls ∧
      (step2Loop o agent true attempts st).1.specUpdates = st.specUpdates := by
  intro attempts
  induction attempts with
  | nil => intro st; simp [step2Loop]
  | cons attempt rest ih =>
      intro st
      cases h : o.implResp attempt with
      | exc e => simp [step2Loop, h]
      | parseErr raw e => simp [step2Loop, h]
      | ok data =>
          by_cases hf : data.files ≠ [] <;> simp [step2Loop, h, hf]

/-- Claim C2: for every Generation Service behaviour, one invocation of
step2_zack_impl terminates (it is a total function by construction) and
makes at most MAX_ZACK_QUESTIONS + 1 top-level Generation Service calls;
its clarification calls number at most MAX_ZACK_QUESTIONS per top-level
call, and exactly one per question it processes (each processed question
logs one zack_question event immediately before its clarification call, so
the clarification-call count equals the number of zack_question events
added to the log). -/
theorem step2_call_budget (o : Step2Oracle) (task : String) (ws : Workspace)
    (log : List Event) (is_fix : Bool) (rc : List String) :
    (step2_zack_impl o task ws log is_fix rc).topCalls ≤ MAX_ZACK_QUESTIONS + 1 ∧
    (step2_zack_impl o task ws log is_fix rc).clarCalls ≤
      MAX_ZACK_QUESTIONS * (step2_zack_impl o task ws log is_fix rc).topCalls ∧
    countQ (step2_zack_impl o task ws log is_fix rc).log =
      countQ log + (step2_zack_impl o task ws log is_fix rc).clarCalls := by
  obtain ⟨a, k, ha, hk, h1, h2, h3⟩ := step2Loop_counts o
    (if is_fix then "Zack(fix)" else "Zack") is_fix
    (List.range (MAX_ZACK_QUESTIONS + 1))
    { spec_md := readFile ws "SPEC.md", ws := ws, log := log,
      topCalls := 0, clarCalls := 0, specUpdates := 0 }
  simp only [List.length_range] at ha
  cases hL : step2Loop o (if is_fix then "Zack(fix)" else "Zack") is_fix
      (List.range (MAX_ZACK_QUESTIONS + 1))
      { spec_md := readFile ws "SPEC.md", ws := ws, log := log,
        topCalls := 0, clarCalls := 0, specUpdates := 0 } with
  | mk st exit =>
      rw [hL] at h1 h2 h3
      simp only [MAX_ZACK_QUESTIONS] at ha hk hL
      cases exit <;>
        (simp [step2_zack_impl, hL, countQ_logEvent, MAX_ZACK_QUESTIONS]
          at h1 h2 h3 ⊢ <;> omega)

/-- Claim C3 (amended): the total number of clarification round-trips in
one step2_zack_impl invocation is at most MAX_ZACK_QUESTIONS per top-level
attempt, hence at most MAX_ZACK_QUESTIONS * (MAX_ZACK_QUESTIONS + 1) = 12
in total — not MAX_ZACK_QUESTIONS = 3 as claimed. -/
theorem step2_clarification_total_bound (o : Step2Oracle) (task : String)
    (ws : Workspace) (log : List Event) (is_fix : Bool) (rc : List String) :
    (step2_zack_impl o task ws log is_fix rc).clarCalls ≤
      MAX_ZACK_QUESTIONS * (MAX_ZACK_QUESTIONS + 1) := by
  obtain ⟨a, k, ha, hk, h1, h2, h3⟩ := step2Loop_counts o
    (if is_fix then "Zack(fix)" else "Zack") is_fix
    (List.range (MAX_ZACK_QUESTIONS + 1))
    { spec_md := readFile ws "SPEC.md", ws := ws, log := log,
      topCalls := 0, clarCalls := 0, specUpdates := 0 }
  simp only [List.length_range] at ha
  cases hL : step2Loop o (if is_fix then "Zack(fix)" else "Zack") is_fix
      (List.range (MAX_ZACK_QUESTIONS + 1))
      { spec_md := readFile ws "SPEC.md", ws := ws, log := log,
        topCalls := 0, clarCalls := 0, specUpdates := 0 } with
  | mk st exit =>
      rw [hL] at h2
      simp only [MAX_ZACK_QUESTIONS] at ha hk ⊢
      cases exit <;>
        (simp [step2_zack_impl, hL] at h2 ⊢ <;> omega)

/-- Counterexample to claim C3 as stated: under a service that returns one
question per attempt, a single step2_zack_impl invocation performs 4
clarification round-trips, exceeding MAX_ZACK_QUESTIONS = 3. -/
theorem step2_clarifications_exceed_max :
    (step2_zack_impl alwaysQuestionOracle "t" [] [] false []).clarCalls = 4 ∧
    ¬((step2_zack_impl alwaysQuestionOracle "t" [] [] false []).clarCalls ≤
        MAX_ZACK_QUESTIONS) := by
  refine ⟨by decide, by decide⟩

/-- Claim C4: in fix mode no clarification round-trip is performed and the
specification-amendment branch (the only place the persisted SPEC.md is
amended with an answer's spec_update) never executes, whatever the
Generation Service returns — including responses with a non-empty
questions list. -/
theorem step2_fix_mode_no_clarification (o : Step2Oracle) (task : String)
    (ws : Workspace) (log : List Event) (rc : List String) :
    (step2_zack_impl o task ws log true rc).clarCalls = 0 ∧
    (step2_zack_impl o task ws log true rc).specUpdates = 0 := by
  obtain ⟨h1, h2⟩ := step2Loop_fix_counts o "Zack(fix)"
    (List.range (MAX_ZACK_QUESTIONS + 1))
    { spec_md := readFile ws "SPEC.md", ws := ws, log := log,
      topCalls := 0, clarCalls := 0, specUpdates := 0 }
  cases hL : step2Loop o "Zack(fix)" true (List.range (MAX_ZACK_QUESTIONS + 1))
      { spec_md := readFile ws "SPEC.md", ws := ws, log := log,
        topCalls := 0, clarCalls := 0, specUpdates := 0 } with
  | mk st exit =>
      rw [hL] at h1 h2
      simp only [] at h1 h2
      cases exit <;> simp [step2_zack_impl, hL, h1, h2]

/-! ## Lemmas about the cycle loop -/

theorem approveOnlyLast_of_noApprove {l : List CycleSummary}
    (h : noApprove l) : approveOnlyLast l := by
  intro i hi hv
  exact absurd hv (h _ (List.getElem_mem hi))

theorem approveOnlyLast_append (l : List CycleSummary) (c : CycleSummary)
    (h : noApprove l) : approveOnlyLast (l ++ [c]) := by
  intro i hi hv
  simp only [List.length_append, List.length_singleton] at hi ⊢
  rcases Nat.lt_or_ge i l.length with h1 | h1
  · exact absurd hv (by rw [List.getElem_append_left h1]
                        exact h _ (List.getElem_mem h1))
  · omega

theorem noApprove_append (l : List CycleSummary) (c : CycleSummary)
    (h : noApprove l) (hc : c.verdict ≠ "approve") : noApprove (l ++ [c]) := by
  intro x hx
  rcases List.mem_append.mp hx with h1 | h1
  · exact h x h1
  · simp only [List.mem_singleton] at h1
    subst h1; exact hc

theorem cycleLoop_length (o : Oracle) (task : String) :
    ∀ (cs : List Nat) (st : LoopState),
      (cycleLoop o task cs st).cycle_summaries.length ≤
        st.cycle_summaries.length + cs.length := by
  intro cs
  induction cs with
  | nil => intro st; simp [cycleLoop]
  | cons c rest ih =>
      intro st
      simp only [cycleLoop]
      split
      · simp <;> omega
      · split
        · simp <;> omega
        · split
          · simp <;> omega
          · split
            · simp <;> omega
            · refine le_trans (ih _) ?_
              simp <;> omega

theorem cycleLoop_approveOnlyLast (o : Oracle) (task : String) :
    ∀ (cs : List Nat) (st : LoopState), noApprove st.cycle_summaries →
      approveOnlyLast (cycleLoop o task cs st).cycle_summaries := by
  intro cs
  induction cs with
  | nil =>
      intro st h
      simpa [cycleLoop] using approveOnlyLast_of_noApprove h
  | cons c rest ih =>
      intro st h
      simp only [cycleLoop]
      split
      · exact approveOnlyLast_of_noApprove h
      · split
        · exact approveOnlyLast_of_noApprove h
        · split
          · exact approveOnlyLast_of_noApprove h
          · split
            · exact approveOnlyLast_append _ _ h
            next hne =>
              exact ih _ (noApprove_append _ _ h hne)

theorem cycleLoop_pending (o : Oracle) (task : String) :
    ∀ (cs : List Nat) (st : LoopState),
      (st.cycle_summaries = [] → st.verdict = "pending") →
      (cycleLoop o task cs st).cycle_summaries = [] →
      (cycleLoop o task cs st).verdict = "pending" := by
  intro cs
  induction cs with
  | nil => intro st h; simpa [cycleLoop] using h
  | cons c rest ih =>
      intro st h
      simp only [cycleLoop]
      split
      · exact h
      · split
        · exact h
        · split
          · exact h
          · split
            · intro hh; simp at hh
            · exact ih _ (by intro hh; simp at hh)

theorem cycleLoop_exc_verdict (o : Oracle) (task : String) :
    ∀ (cs : List Nat) (st : LoopState), st.stageExc = false →
      st.verdict ≠ "approve" →
      (cycleLoop o task cs st).stageExc = true →
      (cycleLoop o task cs st).verdict ≠ "approve" := by
  intro cs
  induction cs with
  | nil =>
      intro st hex hv h
      simp only [cycleLoop] at h
      rw [hex] at h; cases h
  | cons c rest ih =>
      intro st hex hv
      simp only [cycleLoop]
      split
      · intro _; exact hv
      · split
        · intro _; exact hv
        · split
          · intro _; exact hv
          · split
            · intro hh
              simp only [] at hh
              rw [hex] at hh; cases hh
            next hne => exact ih _ hex hne

theorem cycleLoop_exc_lastCycle (o : Oracle) (task : String) :
    ∀ (cs : List Nat) (st : LoopState), st.stageExc = false →
      (cycleLoop o task cs st).stageExc = true →
      (cycleLoop o task cs st).lastCycle.isSome = true := by
  intro cs
  induction cs with
  | nil =>
      intro st hex h
      simp only [cycleLoop] at h
      rw [hex] at h; cases h
  | cons c rest ih =>
      intro st hex
      simp only [cycleLoop]
      split
      · intro _; rfl
      · split
        · intro _; rfl
        · split
          · intro _; rfl
          · split
            · intro hh
              simp only [] at hh
              rw [hex] at hh; cases hh
            · exact ih _ hex

theorem cycleLoop_lastCycle_mono (o : Oracle) (task : String) :
    ∀ (cs : List Nat) (st : LoopState), st.lastCycle.isSome = true →
      (cycleLoop o task cs st).lastCycle.isSome = true := by
  intro cs
  induction cs with
  | nil => intro st h; simpa [cycleLoop] using h
  | cons c rest ih =>
      intro st _
      simp only [cycleLoop]
      split
      · rfl
      · split
        · rfl
        · split
          · rfl
          · split
            · rfl
            · exact ih _ rfl

theorem cycleLoop_lastCycle_isSome (o : Oracle) (task : String) :
    ∀ (cs : List Nat) (st : LoopState), cs ≠ [] →
      (cycleLoop o task cs st).lastCycle.isSome = true := by
  intro cs
  cases cs with
  | nil => intro st h; exact absurd rfl h
  | cons c rest =>
      intro st _
      simp only [cycleLoop]
      split
      · rfl
      · split
        · rfl
        · split
          · rfl
          · split
            · rfl
            · exact cycleLoop_lastCycle_mono o task rest _ rfl

/-! ## Claims about the leaf components -/

/-- Claim C7: every Review Stage invocation whose Generation Service
response fails to parse yields the conservative fallback: verdict
changes_required (never approve) with the non-empty generic
required-changes list. -/
theorem review_parse_failure_conservative (ws : Workspace) (log : List Event)
    (raw e : String) :
    (step4_micke_review (.parseErr raw e) ws log).data.verdict =
      "changes_required" ∧
    (step4_micke_review (.parseErr raw e) ws log).data.required_changes =
      ["Kontrollera output-format"] ∧
    (step4_micke_review (.parseErr raw e) ws log).data.required_changes ≠ [] ∧
    (step4_micke_review (.parseErr raw e) ws log).data.verdict ≠ "approve" :=
  ⟨rfl, rfl, by simp [step4_micke_review], by simp [step4_micke_review]⟩

/-- Claim C8: run_code is total — every input yields a (stdout, stderr,
success) triple rather than an exception — and the three failure modes
each map to success = false with their distinguishing stderr message:
missing entry point, exceeded timeout, and a launch failure carrying the
exception text. -/
theorem run_code_failure_modes (pathStr : String) (timeout : Nat)
    (outcome : SandboxOutcome) (e : String) :
    run_code false outcome pathStr timeout =
      ("", "Filen " ++ pathStr ++ " hittades inte", false) ∧
    run_code true .timedOut pathStr timeout =
      ("", "TIMEOUT > " ++ toString timeout ++ "s", false) ∧
    run_code true (.raised e) pathStr timeout = ("", e, false) :=
  ⟨rfl, rfl, rfl⟩

/-- Claim C9: the Result Aggregator is deterministic in its inputs — it
reads neither the clock nor the prior workspace, so a repeated invocation
is the identity on the workspace, and two invocations from arbitrary
workspaces produce identical RESULT_SUMMARY.md content. -/
theorem write_result_summary_deterministic (ws ws1 ws2 : Workspace)
    (feat_id task : String) (spec_data : SpecData)
    (cycle_summaries : List CycleSummary) :
    write_result_summary
        (write_result_summary ws feat_id task spec_data cycle_summaries)
        feat_id task spec_data cycle_summaries =
      write_result_summary ws feat_id task spec_data cycle_summaries ∧
    readFile (write_result_summary ws1 feat_id task spec_data cycle_summaries)
        "RESULT_SUMMARY.md" =
      readFile (write_result_summary ws2 feat_id task spec_data cycle_summaries)
        "RESULT_SUMMARY.md" := by
  constructor
  · simp [write_result_summary, writeFiles, writeFile_writeFile_same]
  · simp [write_result_summary, writeFiles, readFile_writeFile_same]

/-! ## Claims about run -/

/-- Claim C1: for every run, the cycle-summaries sequence has length at
most max_cycles (max_cycles.toNat mirrors range(1, max_cycles + 1) and
equals max_cycles whenever max_cycles is non-negative), and any
CycleSummary carrying an approve verdict is the last element. -/
theorem run_cycle_summaries_invariant (o : Oracle) (task : String)
    (url : Option String) (feat_id : String) (max_cycles : Int) :
    (summariesOf (run o task url feat_id max_cycles)).length ≤
      max_cycles.toNat ∧
    approveOnlyLast (summariesOf (run o task url feat_id max_cycles)) := by
  simp only [run]
  split
  next e heq =>
      constructor
      · simp [summariesOf, errResult]
      · simp only [summariesOf, errResult]
        intro i hi _
        simp at hi
  next heq =>
      split
      next heq2 =>
          constructor
          · simp [summariesOf]
          · simp only [summariesOf]
            intro i hi _
            simp at hi
      next cycle heq2 =>
          constructor
          · simp only [summariesOf]
            refine le_trans (cycleLoop_length o task (cycleIdxs max_cycles) _) ?_
            simp [cycleIdxs]
          · simp only [summariesOf]
            refine cycleLoop_approveOnlyLast o task _ _ ?_
            intro x hx
            simp at hx

/-- Claim C5: when the spec-author response does not parse, step 1 raises
before writing anything and run returns the error-shaped result: status
error, cycle count 0, and no testdata/ or expected/ artifacts in the
Workspace. -/
theorem run_spec_parse_error (o : Oracle) (task : String) (url : Option String)
    (feat_id : String) (max_cycles : Int) (raw e : String)
    (h : o.specResp = .parseErr raw e) :
    statusOf (run o task url feat_id max_cycles) = "error" ∧
    cyclesOf (run o task url feat_id max_cycles) = some 0 ∧
    (wsOf (run o task url feat_id max_cycles)).filter
      (fun kv => "testdata/".isPrefixOf kv.1 || "expected/".isPrefixOf kv.1)
      = [] := by
  refine ⟨?_, ?_, ?_⟩ <;>
    simp [run, h, step1_micke_spec, statusOf, cyclesOf, wsOf, errResult]

/-- Witness for C5 at a concrete stub oracle. -/
theorem run_spec_parse_error_witness :
    statusOf (run specParseFailOracle "t" none "FEAT-1" 4) = "error" ∧
    cyclesOf (run specParseFailOracle "t" none "FEAT-1" 4) = some 0 ∧
    (wsOf (run specParseFailOracle "t" none "FEAT-1" 4)).filter
      (fun kv => "testdata/".isPrefixOf kv.1 || "expected/".isPrefixOf kv.1)
      = [] :=
  run_spec_parse_error specParseFailOracle "t" none "FEAT-1" 4
    "inte json" "Ingen JSON hittades" rfl

/-- Claim C10: run raises an uncaught error exactly when the Spec Stage
succeeds and max_cycles < 1 — the cycle loop body then never executes, so
the final log entry references the never-bound loop variable; whenever
max_cycles >= 1 or the Spec Stage fails, run returns a value normally. -/
theorem run_raises_iff (o : Oracle) (task : String) (url : Option String)
    (feat_id : String) (max_cycles : Int) :
    runRaises (run o task url feat_id max_cycles) = true ↔
      (specOk o.specResp = true ∧ max_cycles < 1) := by
  cases hs : o.specResp with
  | exc e => simp [run, hs, step1_micke_spec, runRaises, specOk]
  | parseErr raw e => simp [run, hs, step1_micke_spec, runRaises, specOk]
  | ok data =>
      by_cases hm : max_cycles < 1
      · have h0 : cycleIdxs max_cycles = [] := by
          simp only [cycleIdxs, List.map_eq_nil_iff, List.range_eq_nil,
            Int.toNat_eq_zero]
          omega
        simp [run, hs, step1_micke_spec, h0, cycleLoop, runRaises, specOk, hm]
      · have hne : cycleIdxs max_cycles ≠ [] := by
          simp only [cycleIdxs, ne_eq, List.map_eq_nil_iff, List.range_eq_nil,
            Int.toNat_eq_zero]
          omega
        simp only [run]
        split
        next e heq =>
            rw [hs] at heq
            simp [step1_micke_spec] at heq
        next heq =>
            split
            next heq2 =>
                rw [← Option.not_isSome_iff_eq_none] at heq2
                exact absurd (cycleLoop_lastCycle_isSome o task _ _ hne) heq2
            next cycle heq2 =>
                simp [runRaises, specOk, hs, hm]

/-- Counterexample to claim C6 as stated: with a changes_required review in
cycle 1 and an implementation-stage exception in cycle 2, the loop stops
with a stage exception recorded, yet run reports status changes_required,
not error. -/
theorem run_stage_exception_nonerror_status :
    stageExcB cycle2FailureOracle "t" 2 = true ∧
    statusOf (run cycle2FailureOracle "t" none "F" 2) = "changes_required" ∧
    statusOf (run cycle2FailureOracle "t" none "F" 2) ≠ "error" ∧
    (summariesOf (run cycle2FailureOracle "t" none "F" 2)).length = 1 := by
  refine ⟨by decide, by decide, by decide, by decide⟩

/-- Claim C6 (amended): when an exception inside the Implementation, Test
or Review stage breaks the cycle loop, run still returns the recorded
CycleSummaries and never reports approved; the status is error or
changes_required — error exactly on the paths where no review verdict was
recorded yet (empty summary list), while a failure after a recorded
changes_required review reports changes_required, not error as claimed. -/
theorem run_stage_exception_status (o : Oracle) (task : String)
    (url : Option String) (feat_id : String) (max_cycles : Int)
    (h : stageExcB o task max_cycles = true) :
    statusOf (run o task url feat_id max_cycles) ≠ "approved" ∧
    (statusOf (run o task url feat_id max_cycles) = "error" ∨
      statusOf (run o task url feat_id max_cycles) = "changes_required") ∧
    (summariesOf (run o task url feat_id max_cycles) = [] →
      statusOf (run o task url feat_id max_cycles) = "error") := by
  cases hF : runFinalState o task max_cycles with
  | none => rw [stageExcB, hF] at h; cases h
  | some fin =>
      rw [stageExcB, hF] at h
      simp only [runFinalState] at hF
      split at hF
      next e heq => cases hF
      next heq =>
          have hfin := Option.some.inj hF
          have hstage : ∃ st0, cycleLoop o task (cycleIdxs max_cycles) st0 = fin ∧
              st0.stageExc = false ∧ st0.verdict = "pending" ∧
              st0.cycle_summaries = [] := ⟨_, hfin, rfl, rfl, rfl⟩
          obtain ⟨st0, hst0, hex0, hv0, hsum0⟩ := hstage
          have hsome := cycleLoop_exc_lastCycle o task (cycleIdxs max_cycles)
            st0 hex0 (by rw [hst0]; exact h)
          have hv := cycleLoop_exc_verdict o task (cycleIdxs max_cycles)
            st0 hex0 (by rw [hv0]; decide) (by rw [hst0]; exact h)
          have hp := cycleLoop_pending o task (cycleIdxs max_cycles)
            st0 (fun _ => hv0)
          rw [hst0] at hsome hv hp
          simp only [run]
          split
          next e heq1 =>
              rw [heq1] at heq
              cases heq
          next heq1 =>
              rw [hfin]
              cases hL : fin.lastCycle with
              | none => rw [hL] at hsome; cases hsome
              | some cycle =>
                  simp only [hL, statusOf, summariesOf]
                  by_cases hcr : fin.verdict = "changes_required"
                  · refine ⟨?_, Or.inr ?_, ?_⟩
                    · simp [runStatus, hcr]
                    · simp [runStatus, hcr]
                    · intro hnil
                      have := hp hnil
                      rw [hcr] at this
                      exact absurd this (by decide)
                  · have he : runStatus fin.verdict = "error" := by
                      simp [runStatus, hv, hcr]
                    exact ⟨by rw [he]; decide, Or.inl he, fun _ => he⟩

/-- Witness for the amended C6 at the concrete two-cycle stub oracle. -/
theorem run_stage_exception_status_witness :
    statusOf (run cycle2FailureOracle "t" none "F" 2) ≠ "approved" ∧
    (statusOf (run cycle2FailureOracle "t" none "F" 2) = "error" ∨
      statusOf (run cycle2FailureOracle "t" none "F" 2) = "changes_required") ∧
    (summariesOf (run cycle2FailureOracle "t" none "F" 2) = [] →
      statusOf (run cycle2FailureOracle "t" none "F" 2) = "error") :=
  run_stage_exception_status cycle2FailureOracle "t" none "F" 2 (by decide)

end AgentTeam
